import Mathlib

/-!
Verification of the script-extender-installer extension (TypeScript sources
under src/).  The definitions below are shallow embeddings of the version
normalization pipeline, the semver comparisons, the three source resolvers
and the acquisition workflows, translated from the TypeScript revisions kept
in the repository.  Machine strings are modelled as Lean strings, JavaScript
regex replaces are modelled as structurally recursive list transformations,
and the event-driven workflows are modelled as pure functions from
environment records (every external input the flow consumes) to outcome
records (every observable effect the flow emits).
-/

namespace SEI

/-! ## Semantic versions

Model of the semver package restricted to canonical release versions
(major.minor.patch, no prerelease or build suffix).  The installed version
always comes from semver.coerce and is canonical; the scraped and tag
versions compared by the code are digit-and-dot strings, so this restriction
is faithful for every comparison the claims mention. -/

structure SemVer where
  major : Nat
  minor : Nat
  patch : Nat
deriving DecidableEq, Repr

/-- Strict ordering of semantic versions: major.minor.patch tuple order. -/
def sLt (a b : SemVer) : Prop :=
  a.major < b.major ∨
    (a.major = b.major ∧ (a.minor < b.minor ∨ (a.minor = b.minor ∧ a.patch < b.patch)))

instance (a b : SemVer) : Decidable (sLt a b) := by
  unfold sLt; infer_instance

/-- Model of semver.lt on canonical versions. -/
def semverLt (a b : SemVer) : Bool := decide (sLt a b)

/-- Model of semver.gt on canonical versions. -/
def semverGt (a b : SemVer) : Bool := semverLt b a

/-- Model of semver.lte on canonical versions. -/
def semverLe (a b : SemVer) : Bool := !semverLt b a

/-- Model of semver.gte on canonical versions. -/
def semverGe (a b : SemVer) : Bool := semverLe b a

theorem sLt_asymm {a b : SemVer} (h : sLt a b) : ¬ sLt b a := by
  unfold sLt at *; omega

theorem sLt_trans {a b c : SemVer} (hab : sLt a b) (hbc : sLt b c) : sLt a c := by
  unfold sLt at *; omega

theorem sLt_total (a b : SemVer) : sLt a b ∨ a = b ∨ sLt b a := by
  obtain ⟨x, y, z⟩ := a
  obtain ⟨u, v, w⟩ := b
  unfold sLt
  simp only [SemVer.mk.injEq]
  omega

theorem semverLe_iff {a b : SemVer} : semverLe a b = true ↔ ¬ sLt b a := by
  simp [semverLe, semverLt]

theorem semverGe_iff {a b : SemVer} : semverGe a b = true ↔ ¬ sLt a b := by
  simp [semverGe, semverLe, semverLt]

theorem semverGe_false_iff {a b : SemVer} : semverGe a b = false ↔ sLt a b := by
  simp [semverGe, semverLe, semverLt]

theorem semverLe_trans {a b c : SemVer} (hab : semverLe a b = true)
    (hbc : semverLe b c = true) : semverLe a c = true := by
  rw [semverLe_iff] at *
  intro hca
  rcases sLt_total a b with h | h | h
  · exact hbc (sLt_trans hca h)
  · exact hbc (h ▸ hca)
  · exact hab h

theorem semverLe_total (a b : SemVer) : semverLe a b = true ∨ semverLe b a = true := by
  rw [semverLe_iff, semverLe_iff]
  rcases sLt_total a b with h | h | h
  · exact Or.inl (sLt_asymm h)
  · exact Or.inl (by subst h; exact fun hc => sLt_asymm hc hc)
  · exact Or.inr (sLt_asymm h)

/-- Numeric value of a digit string, most significant first. -/
def natOfDigits (l : List Char) : Nat :=
  l.foldl (fun n c => 10 * n + (c.toNat - '0'.toNat)) 0

/-- Splitting a character list at every dot; models String.prototype.split
with separator dot as used on version strings. -/
def splitDots : List Char → List (List Char)
  | [] => [[]]
  | '.' :: rest => [] :: splitDots rest
  | c :: rest =>
    match splitDots rest with
    | [] => [[c]]
    | s :: ss => (c :: s) :: ss

/-- A canonical numeric identifier: nonempty, digits only, no leading zero
unless the identifier is exactly zero.  Models the numeric-identifier rule
of the semver grammar that semver.valid enforces. -/
def parseCanonNat (s : List Char) : Option Nat :=
  if s.isEmpty then none
  else if s.all Char.isDigit then
    if s.head? = some '0' && decide (1 < s.length) then none
    else some (natOfDigits s)
  else none

/-- Model of semver.valid restricted to release versions: an optional
leading v, then three canonical numeric identifiers joined by dots.
Returns the parsed version, or none where the package returns null. -/
def parseSemVer (s : String) : Option SemVer :=
  let l : List Char :=
    match s.data with
    | 'v' :: rest => rest
    | l => l
  match (splitDots l).map parseCanonNat with
  | [some a, some b, some c] => some ⟨a, b, c⟩
  | _ => none

/-- Rendering of a canonical semantic version, as the semver package
prints the version field of a parsed version. -/
def semverToString (v : SemVer) : String :=
  toString v.major ++ "." ++ toString v.minor ++ "." ++ toString v.patch

/-- Model of semver.coerce: skip to the first digit run, read it as the
major number, then read dot-digit runs for minor and patch when present,
defaulting missing components to zero; none when the string has no digits
(where the package returns null). -/
def coerceSemVer (s : String) : Option SemVer :=
  let l := s.data.dropWhile (fun c => !c.isDigit)
  if l.isEmpty then none
  else
    let d1 := l.takeWhile Char.isDigit
    let r1 := l.dropWhile Char.isDigit
    match r1 with
    | '.' :: r2 =>
      let d2 := r2.takeWhile Char.isDigit
      if d2.isEmpty then some ⟨natOfDigits d1, 0, 0⟩
      else
        match r2.dropWhile Char.isDigit with
        | '.' :: r3 =>
          let d3 := r3.takeWhile Char.isDigit
          if d3.isEmpty then some ⟨natOfDigits d1, natOfDigits d2, 0⟩
          else some ⟨natOfDigits d1, natOfDigits d2, natOfDigits d3⟩
        | _ => some ⟨natOfDigits d1, natOfDigits d2, 0⟩
    | _ => some ⟨natOfDigits d1, 0, 0⟩

/-! ## Version normalization pipeline (scrape source)

Shallow embedding of the replace chain applied to the version token in
checkForUpdate (src/src/index.ts, also src/unnamed/part_001 and part_002):
the token captured by the underscore-digits pattern is rewritten by
replacing underscores with dots, deleting lowercase-letter runs, collapsing
every maximal run of zero characters to a single zero, and deleting a zero
that immediately precedes a nonzero digit (a global, non-overlapping
two-character replace). -/

/-- Replace every underscore with a dot (the first global replace). -/
def underscoresToDots (l : List Char) : List Char :=
  l.map (fun c => if c = '_' then '.' else c)

/-- Delete every lowercase-letter run (the second global replace; deleting
each lowercase character is the same as deleting each maximal run). -/
def removeLetterRuns (l : List Char) : List Char :=
  l.filter (fun c => !(decide ('a' ≤ c ∧ c ≤ 'z')))

/-- Collapse every maximal run of zero characters to a single zero (the
third global replace). -/
def collapseZeroRuns (l : List Char) : List Char :=
  l.foldr (fun c acc => if c = '0' ∧ acc.head? = some '0' then acc else c :: acc) []

/-- Delete a zero immediately followed by a nonzero digit (the fourth
global replace); matches are non-overlapping and scanning resumes after
each two-character match, as in the JavaScript engine. -/
def dropZeroPad : List Char → List Char
  | [] => []
  | [c] => [c]
  | c :: d :: rest =>
    if c = '0' ∧ '1' ≤ d ∧ d ≤ '9' then d :: dropZeroPad rest
    else c :: dropZeroPad (d :: rest)

/-- The full normalization pipeline on a version token. -/
def normalizeTokenL (l : List Char) : List Char :=
  dropZeroPad (collapseZeroRuns (removeLetterRuns (underscoresToDots l)))

/-- String form of the normalization pipeline. -/
def normalizeToken (s : String) : String := ⟨normalizeTokenL s.data⟩

/-! ### The specified normalization (leading-zero stripping)

The claim describes the pipeline as removing leading-but-not-sole zeros
from each underscore-separated segment.  These definitions follow that
wording so the pipeline can be compared against it. -/

/-- Join segments with a separator character. -/
def joinSep (sep : Char) : List (List Char) → List Char
  | [] => []
  | [s] => s
  | s :: rest => s ++ sep :: joinSep sep rest

/-- Remove the leading zeros of one segment, leaving a sole zero for a
segment that is entirely zeros.  Follows the wording of the claim, not the
code. -/
def stripLeadingZeroSeg (s : List Char) : List Char :=
  match s.dropWhile (fun c => c = '0') with
  | [] => ['0']
  | r => r

/-- The version the claim says the pipeline produces: each segment with
leading-but-not-sole zeros removed, joined by dots.  Follows the wording of
the claim, not the code. -/
def specLeadingZeroStrip (segs : List (List Char)) : List Char :=
  joinSep '.' (segs.map stripLeadingZeroSeg)

/-- String form of the claimed normalization, taking the segments of the
version token. -/
def specLeadingZeroStripStr (segs : List String) : String :=
  ⟨specLeadingZeroStrip (segs.map String.data)⟩

/-- String form of the token built from the segments of a scraped
filename that matches one of the per-game patterns. -/
def tokenOfSegs (segs : List String) : String :=
  ⟨joinSep '_' (segs.map String.data)⟩

/-! ### Segment decomposition used to settle the normalization claim

A version segment is decomposed into leading zeros, a zero-free digit core
and an optional single trailing zero.  The amended claim quantifies over
segments whose zeros occur only as leading padding (an all-zero segment is
allowed); the decomposition makes that hypothesis explicit. -/

structure SegSpec where
  lead : Nat
  core : List Char
  trail : Bool
deriving DecidableEq, Repr

/-- The characters of the segment a SegSpec describes. -/
def segOf (g : SegSpec) : List Char :=
  List.replicate g.lead '0' ++ g.core ++ (if g.trail then ['0'] else [])

/-- Well-formedness of a SegSpec: the core holds nonzero digits, a trailing
zero needs a nonempty core, and a segment without leading zeros needs a
nonempty core. -/
def goodSpec (g : SegSpec) : Prop :=
  (∀ c ∈ g.core, '1' ≤ c ∧ c ≤ '9') ∧
    (g.trail = true → g.core ≠ []) ∧ (g.lead = 0 → g.core ≠ [])

instance : DecidablePred goodSpec := fun g => by
  unfold goodSpec; infer_instance

theorem nonzero_digit_ne_zero {c : Char} (h : '1' ≤ c ∧ c ≤ '9') : c ≠ '0' := by
  rintro rfl
  exact absurd h.1 (by decide)

theorem collapseZeroRuns_cons (c : Char) (l : List Char) :
    collapseZeroRuns (c :: l) =
      if c = '0' ∧ (collapseZeroRuns l).head? = some '0' then collapseZeroRuns l
      else c :: collapseZeroRuns l := rfl

theorem collapseZeroRuns_cons_ne {c : Char} (hc : c ≠ '0') (l : List Char) :
    collapseZeroRuns (c :: l) = c :: collapseZeroRuns l := by
  rw [collapseZeroRuns_cons]
  simp [hc]

theorem head_collapseZeroRuns_zero (l : List Char) :
    (collapseZeroRuns ('0' :: l)).head? = some '0' := by
  rw [collapseZeroRuns_cons]
  split
  · next h => exact h.2
  · rfl

theorem collapseZeroRuns_replicate (a : Nat) (l : List Char) :
    collapseZeroRuns (List.replicate (a + 1) '0' ++ l) = collapseZeroRuns ('0' :: l) := by
  induction a with
  | zero => rfl
  | succ n ih =>
    have : List.replicate (n + 2) '0' ++ l = '0' :: (List.replicate (n + 1) '0' ++ l) := rfl
    rw [this, collapseZeroRuns_cons, ih]
    simp [head_collapseZeroRuns_zero]

theorem collapseZeroRuns_append_ne (xs t : List Char) (h : ∀ c ∈ xs, c ≠ '0') :
    collapseZeroRuns (xs ++ t) = xs ++ collapseZeroRuns t := by
  induction xs with
  | nil => rfl
  | cons c cs ih =>
    rw [List.cons_append, collapseZeroRuns_cons_ne (h c (by simp)),
      ih (fun d hd => h d (by simp [hd]))]
    rfl

theorem dropZeroPad_cons_ne {c : Char} (hc : c ≠ '0') (l : List Char) :
    dropZeroPad (c :: l) = c :: dropZeroPad l := by
  cases l <;> simp [dropZeroPad, hc]

theorem dropZeroPad_zero_digit {d : Char} (hd : '1' ≤ d ∧ d ≤ '9') (rest : List Char) :
    dropZeroPad ('0' :: d :: rest) = d :: dropZeroPad rest := by
  simp [dropZeroPad, hd]

theorem dropZeroPad_zero_other {d : Char} (hd : ¬('1' ≤ d ∧ d ≤ '9')) (rest : List Char) :
    dropZeroPad ('0' :: d :: rest) = '0' :: dropZeroPad (d :: rest) := by
  simp [dropZeroPad, hd]

theorem dropZeroPad_append_ne (xs t : List Char) (h : ∀ c ∈ xs, c ≠ '0') :
    dropZeroPad (xs ++ t) = xs ++ dropZeroPad t := by
  induction xs with
  | nil => rfl
  | cons c cs ih =>
    rw [List.cons_append, dropZeroPad_cons_ne (h c (by simp)),
      ih (fun d hd => h d (by simp [hd]))]
    rfl

/-- The segment as it stands after the zero-run collapse. -/
def collapsedSeg (g : SegSpec) : List Char :=
  (if g.lead = 0 then [] else ['0']) ++ g.core ++ (if g.trail then ['0'] else [])

/-- The segment as it stands after the full pipeline. -/
def strippedSeg (g : SegSpec) : List Char :=
  if g.core = [] then ['0'] else g.core ++ (if g.trail then ['0'] else [])

theorem collapse_seg (g : SegSpec) (t : List Char) (hg : goodSpec g)
    (ht : (collapseZeroRuns t).head? ≠ some '0') :
    collapseZeroRuns (segOf g ++ t) = collapsedSeg g ++ collapseZeroRuns t := by
  obtain ⟨hcore, htrail, hlead⟩ := hg
  have hcz : ∀ c ∈ g.core, c ≠ '0' := fun c hc => nonzero_digit_ne_zero (hcore c hc)
  have hT : collapseZeroRuns ((if g.trail then ['0'] else []) ++ t) =
      (if g.trail then ['0'] else []) ++ collapseZeroRuns t := by
    by_cases h : g.trail
    · simp only [h, if_true, List.singleton_append]
      rw [collapseZeroRuns_cons]
      simp [ht]
    · simp [h]
  have hCT : collapseZeroRuns ((g.core ++ (if g.trail then ['0'] else [])) ++ t) =
      (g.core ++ (if g.trail then ['0'] else [])) ++ collapseZeroRuns t := by
    rw [List.append_assoc, collapseZeroRuns_append_ne _ _ hcz, hT, List.append_assoc]
  have hhead : (((g.core ++ (if g.trail then ['0'] else [])) ++ collapseZeroRuns t)).head? ≠
      some '0' := by
    cases hc : g.core with
    | nil =>
      have htr : g.trail = false := by
        cases htr : g.trail
        · rfl
        · exact absurd (htrail htr) (by simp [hc])
      simpa [hc, htr] using ht
    | cons d u =>
      have hd := nonzero_digit_ne_zero (hcore d (by simp [hc]))
      simp [hc, hd]
  unfold segOf collapsedSeg
  cases hl : g.lead with
  | zero =>
    simpa [hl] using hCT
  | succ n =>
    have hassoc : (List.replicate (n + 1) '0' ++ g.core ++ (if g.trail then ['0'] else [])) ++ t =
        List.replicate (n + 1) '0' ++ ((g.core ++ (if g.trail then ['0'] else [])) ++ t) := by
      simp [List.append_assoc]
    rw [hassoc, collapseZeroRuns_replicate, collapseZeroRuns_cons, hCT]
    simp only [hhead, and_false, if_false]
    simp

theorem drop_seg (g : SegSpec) (t : List Char) (hg : goodSpec g)
    (hzt : dropZeroPad ('0' :: t) = '0' :: dropZeroPad t) :
    dropZeroPad (collapsedSeg g ++ t) = strippedSeg g ++ dropZeroPad t := by
  obtain ⟨hcore, htrail, hlead⟩ := hg
  have hcz : ∀ c ∈ g.core, c ≠ '0' := fun c hc => nonzero_digit_ne_zero (hcore c hc)
  have hT : dropZeroPad ((if g.trail then ['0'] else []) ++ t) =
      (if g.trail then ['0'] else []) ++ dropZeroPad t := by
    by_cases h : g.trail
    · simpa [h] using hzt
    · simp [h]
  unfold collapsedSeg strippedSeg
  cases hc : g.core with
  | nil =>
    have htr : g.trail = false := by
      cases htr : g.trail
      · rfl
      · exact absurd (htrail htr) (by simp [hc])
    have hl : g.lead ≠ 0 := fun h => absurd hc (hlead h)
    simpa [hc, htr, hl] using hzt
  | cons d u =>
    have hu : ∀ c ∈ u, c ≠ '0' := fun c hcm => hcz c (by simp [hc, hcm])
    have hCT : dropZeroPad (((d :: u) ++ (if g.trail then ['0'] else [])) ++ t) =
        ((d :: u) ++ (if g.trail then ['0'] else [])) ++ dropZeroPad t := by
      rw [List.append_assoc, dropZeroPad_append_ne _ _ (fun c hcm => hcz c (by rw [hc]; exact hcm)),
        hT, List.append_assoc]
    cases hl : g.lead with
    | zero =>
      simpa [hl, hc] using hCT
    | succ n =>
      have hd : '1' ≤ d ∧ d ≤ '9' := hcore d (by simp [hc])
      have h1 : ((if n + 1 = 0 then ([] : List Char) else ['0']) ++ d :: u ++
          (if g.trail then ['0'] else [])) ++ t =
          '0' :: d :: (u ++ ((if g.trail then ['0'] else []) ++ t)) := by
        simp
      rw [h1, dropZeroPad_zero_digit hd, dropZeroPad_append_ne _ _ hu, hT]
      simp [hc]

theorem dropWhile_replicate_zero (a : Nat) (l : List Char) :
    (List.replicate a '0' ++ l).dropWhile (fun c => c = '0') =
      l.dropWhile (fun c => c = '0') := by
  induction a with
  | zero => rfl
  | succ n ih =>
    rw [List.replicate_succ, List.cons_append, List.dropWhile_cons]
    simp only [decide_True, if_true]
    exact ih

theorem strippedSeg_eq (g : SegSpec) (hg : goodSpec g) :
    strippedSeg g = stripLeadingZeroSeg (segOf g) := by
  obtain ⟨hcore, htrail, hlead⟩ := hg
  unfold strippedSeg stripLeadingZeroSeg segOf
  rw [List.append_assoc, dropWhile_replicate_zero]
  cases hc : g.core with
  | nil =>
    have htr : g.trail = false := by
      cases htr : g.trail
      · rfl
      · exact absurd (htrail htr) (by simp [hc])
    simp [hc, htr]
  | cons d u =>
    have hd : d ≠ '0' := nonzero_digit_ne_zero (hcore d (by simp [hc]))
    rw [List.cons_append, List.dropWhile_cons]
    simp [hc, hd]

theorem drop_collapse_joinSep (gs : List SegSpec) (hg : ∀ g ∈ gs, goodSpec g)
    (hne : gs ≠ []) :
    dropZeroPad (collapseZeroRuns (joinSep '.' (gs.map segOf))) =
      joinSep '.' ((gs.map segOf).map stripLeadingZeroSeg) := by
  induction gs with
  | nil => exact absurd rfl hne
  | cons g rest ih =>
    have hgg := hg g (by simp)
    cases rest with
    | nil =>
      have h1 : collapseZeroRuns (segOf g) = collapsedSeg g := by
        have := collapse_seg g [] hgg (by simp [collapseZeroRuns])
        simpa [show collapseZeroRuns [] = [] from rfl] using this
      have h2 : dropZeroPad (collapsedSeg g) = strippedSeg g := by
        have := drop_seg g [] hgg rfl
        simpa [show dropZeroPad [] = [] from rfl] using this
      show dropZeroPad (collapseZeroRuns (segOf g)) = stripLeadingZeroSeg (segOf g)
      rw [h1, h2, strippedSeg_eq g hgg]
    | cons g2 rest2 =>
      have hrest : ∀ x ∈ g2 :: rest2, goodSpec x := fun x hx => hg x (by simp [hx])
      have hJ : joinSep '.' ((g :: g2 :: rest2).map segOf) =
          segOf g ++ '.' :: joinSep '.' ((g2 :: rest2).map segOf) := rfl
      have hcJ : collapseZeroRuns ('.' :: joinSep '.' ((g2 :: rest2).map segOf)) =
          '.' :: collapseZeroRuns (joinSep '.' ((g2 :: rest2).map segOf)) :=
        collapseZeroRuns_cons_ne (by decide) _
      have h1 : collapseZeroRuns (segOf g ++ '.' :: joinSep '.' ((g2 :: rest2).map segOf)) =
          collapsedSeg g ++ '.' :: collapseZeroRuns (joinSep '.' ((g2 :: rest2).map segOf)) := by
        rw [collapse_seg g _ hgg (by rw [hcJ]; simp), hcJ]
      have h2 : dropZeroPad (collapsedSeg g ++
            '.' :: collapseZeroRuns (joinSep '.' ((g2 :: rest2).map segOf))) =
          strippedSeg g ++
            '.' :: dropZeroPad (collapseZeroRuns (joinSep '.' ((g2 :: rest2).map segOf))) := by
        rw [drop_seg g _ hgg (dropZeroPad_zero_other (by decide) _),
          dropZeroPad_cons_ne (by decide)]
      rw [hJ, h1, h2, ih hrest (by simp), strippedSeg_eq g hgg]
      rfl

theorem underscoresToDots_eq_self {s : List Char} (h : ∀ c ∈ s, c ≠ '_') :
    underscoresToDots s = s := by
  induction s with
  | nil => rfl
  | cons c cs ih =>
    simp only [underscoresToDots, List.map_cons] at *
    rw [if_neg (h c (by simp))]
    exact congrArg _ (ih (fun d hd => h d (by simp [hd])))

theorem underscoresToDots_joinSep (gs : List (List Char))
    (h : ∀ s ∈ gs, ∀ c ∈ s, c ≠ '_') :
    underscoresToDots (joinSep '_' gs) = joinSep '.' gs := by
  induction gs with
  | nil => rfl
  | cons s rest ih =>
    cases rest with
    | nil => exact underscoresToDots_eq_self (h s (by simp))
    | cons s2 r2 =>
      show underscoresToDots (s ++ '_' :: joinSep '_' (s2 :: r2)) =
        s ++ '.' :: joinSep '.' (s2 :: r2)
      have hmap : underscoresToDots (s ++ '_' :: joinSep '_' (s2 :: r2)) =
          underscoresToDots s ++ '.' :: underscoresToDots (joinSep '_' (s2 :: r2)) := by
        simp [underscoresToDots]
      rw [hmap, underscoresToDots_eq_self (h s (by simp)),
        ih (fun x hx c hc => h x (by simp [hx]) c hc)]

theorem removeLetterRuns_eq_self {s : List Char} (h : ∀ c ∈ s, ¬('a' ≤ c ∧ c ≤ 'z')) :
    removeLetterRuns s = s := by
  unfold removeLetterRuns
  rw [List.filter_eq_self]
  intro c hc
  simp [h c hc]

theorem mem_joinSep {c : Char} {sep : Char} (gs : List (List Char))
    (h : c ∈ joinSep sep gs) : c = sep ∨ ∃ s ∈ gs, c ∈ s := by
  induction gs with
  | nil => simp [joinSep] at h
  | cons s rest ih =>
    cases rest with
    | nil => exact Or.inr ⟨s, by simp, h⟩
    | cons s2 r2 =>
      rw [show joinSep sep (s :: s2 :: r2) = s ++ sep :: joinSep sep (s2 :: r2) from rfl] at h
      rcases List.mem_append.mp h with h | h
      · exact Or.inr ⟨s, by simp, h⟩
      · rcases List.mem_cons.mp h with h | h
        · exact Or.inl h
        · rcases ih h with h | ⟨t, ht, hct⟩
          · exact Or.inl h
          · exact Or.inr ⟨t, by simp [ht], hct⟩

theorem segOf_chars {g : SegSpec} (hg : goodSpec g) :
    ∀ c ∈ segOf g, c = '0' ∨ ('1' ≤ c ∧ c ≤ '9') := by
  obtain ⟨hcore, _, _⟩ := hg
  intro c hc
  unfold segOf at hc
  rcases List.mem_append.mp hc with hc | hc
  · rcases List.mem_append.mp hc with hc | hc
    · exact Or.inl (List.eq_of_mem_replicate hc)
    · exact Or.inr (hcore c hc)
  · by_cases htr : g.trail
    · rw [if_pos htr] at hc
      exact Or.inl (by simpa using hc)
    · rw [if_neg htr] at hc
      exact absurd hc (by simp)

/-- Claim C2 (amended): for every version token whose segments carry zeros
only as leading padding or as a single trailing zero after a nonzero core
(all-zero segments allowed), the normalization pipeline of checkForUpdate
produces exactly the token with underscores turned to dots and
leading-but-not-sole zeros stripped from each segment.  Tokens with other
interior zero runs are changed in numeric magnitude (see the
counterexample), which is what forces this restriction of the original
claim. -/
theorem normalization_matches_leading_zero_strip (gs : List SegSpec)
    (hne : gs ≠ []) (hg : ∀ g ∈ gs, goodSpec g) :
    normalizeTokenL (joinSep '_' (gs.map segOf)) = specLeadingZeroStrip (gs.map segOf) := by
  unfold normalizeTokenL specLeadingZeroStrip
  have h1 : underscoresToDots (joinSep '_' (gs.map segOf)) = joinSep '.' (gs.map segOf) := by
    apply underscoresToDots_joinSep
    intro s hs c hc
    obtain ⟨g, hgmem, rfl⟩ := List.mem_map.mp hs
    rcases segOf_chars (hg g hgmem) c hc with h | h
    · subst h; decide
    · rintro rfl
      exact absurd h.2 (by decide)
  have h2 : removeLetterRuns (joinSep '.' (gs.map segOf)) = joinSep '.' (gs.map segOf) := by
    apply removeLetterRuns_eq_self
    intro c hc
    rcases mem_joinSep _ hc with h | ⟨s, hs, hcs⟩
    · subst h; decide
    · obtain ⟨g, hgmem, rfl⟩ := List.mem_map.mp hs
      rcases segOf_chars (hg g hgmem) c hcs with h | h
      · subst h; decide
      · intro hlz
        exact absurd (le_trans hlz.1 h.2) (by decide)
  rw [h1, h2]
  rw [drop_collapse_joinSep gs hg hne]

/-- Witness for the amended claim C2 at the token 1_07_3 (from a filename
such as beta/skse_1_07_3.7z that matches the documented skyrim pattern):
the pipeline yields 1.7.3, the leading-zero-stripped form. -/
theorem normalization_matches_leading_zero_strip_witness :
    normalizeTokenL (joinSep '_'
        ([⟨0, ['1'], false⟩, ⟨1, ['7'], false⟩, ⟨0, ['3'], false⟩].map segOf)) =
      specLeadingZeroStrip
        ([⟨0, ['1'], false⟩, ⟨1, ['7'], false⟩, ⟨0, ['3'], false⟩].map segOf) ∧
      normalizeToken "1_07_3" = "1.7.3" :=
  ⟨normalization_matches_leading_zero_strip _ (by decide) (by decide), by decide⟩

/-- Claim C2 counterexample: the filename beta/skse64_2_0_200.7z matches
the documented skyrimse zero-padding pattern and yields the version token
2_0_200; the pipeline collapses the interior zero run of the segment 200
and produces 2.0.20, while the claimed normalization (leading-but-not-sole
zeros removed, magnitude preserved) is 2.0.200. -/
theorem normalization_zero_run_counterexample :
    tokenOfSegs ["2", "0", "200"] = "2_0_200" ∧
      normalizeToken "2_0_200" = "2.0.20" ∧
      specLeadingZeroStripStr ["2", "0", "200"] = "2.0.200" ∧
      normalizeToken "2_0_200" ≠ specLeadingZeroStripStr ["2", "0", "200"] := by
  refine ⟨by decide, by decide, by decide, by decide⟩

/-! ## Comparator sorting

Model of Array.prototype.sort with a two-argument comparator: a comparison
sort agreeing with the boolean relation that the comparator induces.  Only
the relative order the comparator dictates is relevant to the claims, so an
insertion sort stands in for the engine sort. -/

def insertSorted (le : α → α → Bool) (x : α) : List α → List α
  | [] => [x]
  | y :: ys => if le x y then x :: y :: ys else y :: insertSorted le x ys

def sortBy (le : α → α → Bool) : List α → List α
  | [] => []
  | x :: xs => insertSorted le x (sortBy le xs)

theorem mem_insertSorted (le : α → α → Bool) (x a : α) (l : List α) :
    a ∈ insertSorted le x l ↔ a = x ∨ a ∈ l := by
  induction l with
  | nil => simp [insertSorted]
  | cons y ys ih =>
    simp only [insertSorted]
    split
    · simp
    · simp only [List.mem_cons, ih]
      tauto

theorem mem_sortBy (le : α → α → Bool) (a : α) (l : List α) :
    a ∈ sortBy le l ↔ a ∈ l := by
  induction l with
  | nil => simp [sortBy]
  | cons x xs ih => simp [sortBy, mem_insertSorted, ih]

theorem pairwise_insertSorted (le : α → α → Bool)
    (htot : ∀ a b, le a b = true ∨ le b a = true)
    (htrans : ∀ a b c, le a b = true → le b c = true → le a c = true)
    (x : α) (l : List α) (hl : List.Pairwise (fun a b => le a b = true) l) :
    List.Pairwise (fun a b => le a b = true) (insertSorted le x l) := by
  induction l with
  | nil => simp [insertSorted]
  | cons y ys ih =>
    obtain ⟨hy, hys⟩ := List.pairwise_cons.mp hl
    simp only [insertSorted]
    split
    · next hxy =>
      refine List.pairwise_cons.mpr ⟨?_, hl⟩
      intro b hb
      rcases List.mem_cons.mp hb with rfl | hb
      · exact hxy
      · exact htrans x y b hxy (hy b hb)
    · next hxy =>
      have hyx : le y x = true := by
        rcases htot x y with h | h
        · exact absurd h hxy
        · exact h
      refine List.pairwise_cons.mpr ⟨?_, ih hys⟩
      intro b hb
      rcases (mem_insertSorted le x b ys).mp hb with rfl | hb
      · exact hyx
      · exact hy b hb

theorem pairwise_sortBy (le : α → α → Bool)
    (htot : ∀ a b, le a b = true ∨ le b a = true)
    (htrans : ∀ a b c, le a b = true → le b c = true → le a c = true)
    (l : List α) : List.Pairwise (fun a b => le a b = true) (sortBy le l) := by
  induction l with
  | nil => simp [sortBy]
  | cons x xs ih => exact pairwise_insertSorted le htot htrans x _ ih

theorem sortBy_head_le (le : α → α → Bool)
    (htot : ∀ a b, le a b = true ∨ le b a = true)
    (htrans : ∀ a b c, le a b = true → le b c = true → le a c = true)
    {l : List α} {x : α} (h : (sortBy le l).head? = some x) :
    ∀ a ∈ l, le x a = true := by
  intro a ha
  have hmem : a ∈ sortBy le l := (mem_sortBy le a l).mpr ha
  have hp := pairwise_sortBy le htot htrans l
  cases hs : sortBy le l with
  | nil => rw [hs] at hmem; simp at hmem
  | cons y t =>
    rw [hs] at h hp hmem
    obtain rfl : y = x := by simpa using h
    rcases List.mem_cons.mp hmem with rfl | hmem
    · rcases htot a a with h | h <;> exact h
    · exact (List.pairwise_cons.mp hp).1 a hmem

/-! ## Managed-repository resolver (Nexus Mods)

Model of the candidate filter and tie-break in startDownload of
src/src/nexusModsDownloader.ts.  The repository keeps three revisions of
this function; the earliest (lines 110 to 125) sorts by ascending upload
timestamp, the two later ones (lines 289 to 306 and 491 to 506) by
descending upload timestamp.  Both are embedded. -/

structure NexusModFile where
  file_id : Nat
  description : String
  is_primary : Bool
  uploaded_timestamp : Int
  category_name : String
  version : String
deriving DecidableEq, Repr

/-- Model of prefix testing used by substring search. -/
def listStartsWith : List Char → List Char → Bool
  | [], _ => true
  | _ :: _, [] => false
  | c :: cs, d :: ds => c = d && listStartsWith cs ds

/-- Model of substring search on character lists. -/
def listContainsSub (needle : List Char) : List Char → Bool
  | [] => needle.isEmpty
  | d :: ds => listStartsWith needle (d :: ds) || listContainsSub needle ds

/-- Model of String.prototype.includes. -/
def strIncludes (hay needle : String) : Bool := listContainsSub needle.data hay.data

/-- JavaScript truthiness of an optional string: undefined and the empty
string are falsy. -/
def strTruthy : Option String → Bool
  | none => false
  | some s => !s.isEmpty

/-- Candidate filter of the earliest startDownload revision (line 115):
the description must contain the game version when one is known, the
primary flag decides otherwise. -/
def fileMatchesV1 (gameVersion : Option String) (f : NexusModFile) : Bool :=
  if strTruthy gameVersion then strIncludes f.description (gameVersion.getD "")
  else f.is_primary

/-- Candidate filter of the later startDownload revisions (line 295): a
description containing the game version, or a primary file without a
description. -/
def fileMatches (gameVersion : Option String) (f : NexusModFile) : Bool :=
  (strTruthy gameVersion && !f.description.isEmpty &&
      strIncludes f.description (gameVersion.getD "")) ||
    (f.description.isEmpty && f.is_primary)

/-- The ascending comparator of the earliest revision, subtracting upload
timestamps as numbers. -/
def tsAsc (a b : NexusModFile) : Bool :=
  decide (a.uploaded_timestamp ≤ b.uploaded_timestamp)

/-- The descending comparator of the later revisions, subtracting upload
timestamps the other way around. -/
def tsDesc (a b : NexusModFile) : Bool :=
  decide (b.uploaded_timestamp ≤ a.uploaded_timestamp)

/-- Candidate selection of the earliest startDownload revision: filter,
sort ascending by upload timestamp when more than one candidate remains,
take the first. -/
def selectModFileEarly (gameVersion : Option String) (files : List NexusModFile) :
    Option NexusModFile :=
  let modFiles := files.filter (fileMatchesV1 gameVersion)
  let modFiles := if 1 < modFiles.length then sortBy tsAsc modFiles else modFiles
  modFiles.head?

/-- Candidate selection of the later startDownload revisions: filter, sort
descending by upload timestamp when more than one candidate remains, take
the first. -/
def selectModFile (gameVersion : Option String) (files : List NexusModFile) :
    Option NexusModFile :=
  let modFiles := files.filter (fileMatches gameVersion)
  let modFiles := if 1 < modFiles.length then sortBy tsDesc modFiles else modFiles
  modFiles.head?

/-- Claim C3 counterexample: the earliest startDownload revision sorts the
candidates ascending and therefore selects the file with the earlier
upload timestamp, not the later one, when two candidates carry an
identical description match and differing timestamps. -/
theorem nexus_tiebreak_counterexample :
    fileMatchesV1 (some "1.6")
        ⟨100, "build for 1.6", false, 100, "Main", "2.0.16"⟩ = true ∧
      fileMatchesV1 (some "1.6")
        ⟨200, "build for 1.6", false, 200, "Main", "2.0.17"⟩ = true ∧
      (100 : Int) < 200 ∧
      selectModFileEarly (some "1.6")
        [⟨100, "build for 1.6", false, 100, "Main", "2.0.16"⟩,
         ⟨200, "build for 1.6", false, 200, "Main", "2.0.17"⟩] =
        some ⟨100, "build for 1.6", false, 100, "Main", "2.0.16"⟩ := by
  refine ⟨by decide, by decide, by decide, by decide⟩

theorem tsDesc_total : ∀ a b : NexusModFile, tsDesc a b = true ∨ tsDesc b a = true := by
  intro a b
  unfold tsDesc
  rcases le_total a.uploaded_timestamp b.uploaded_timestamp with h | h
  · exact Or.inr (by simpa using h)
  · exact Or.inl (by simpa using h)

theorem tsDesc_trans : ∀ a b c : NexusModFile,
    tsDesc a b = true → tsDesc b c = true → tsDesc a c = true := by
  intro a b c hab hbc
  unfold tsDesc at *
  simp only [decide_eq_true_eq] at *
  exact le_trans hbc hab

/-- Claim C3 (amended): in the later startDownload revisions the selected
candidate passes the description filter and carries an upload timestamp at
least as recent as every other candidate passing the filter; the earliest
revision instead selects the oldest candidate (see the counterexample). -/
theorem nexus_tiebreak_selects_latest (gameVersion : Option String)
    (files : List NexusModFile) (sel : NexusModFile)
    (hsel : selectModFile gameVersion files = some sel) :
    fileMatches gameVersion sel = true ∧
      ∀ f ∈ files, fileMatches gameVersion f = true →
        f.uploaded_timestamp ≤ sel.uploaded_timestamp := by
  simp only [selectModFile] at hsel
  by_cases hlen : 1 < (files.filter (fileMatches gameVersion)).length
  · rw [if_pos hlen] at hsel
    have hmemSel : sel ∈ files.filter (fileMatches gameVersion) := by
      have hm : sel ∈ sortBy tsDesc (files.filter (fileMatches gameVersion)) := by
        cases hs : sortBy tsDesc (files.filter (fileMatches gameVersion)) with
        | nil => rw [hs] at hsel; simp at hsel
        | cons y t =>
          rw [hs] at hsel
          simp only [List.head?_cons, Option.some.injEq] at hsel
          simp [← hsel]
      exact (mem_sortBy _ _ _).mp hm
    refine ⟨(List.mem_filter.mp hmemSel).2, ?_⟩
    intro f hf hmatch
    have hmemF : f ∈ files.filter (fileMatches gameVersion) :=
      List.mem_filter.mpr ⟨hf, hmatch⟩
    have hle := sortBy_head_le tsDesc tsDesc_total tsDesc_trans hsel f hmemF
    simpa [tsDesc] using hle
  · rw [if_neg hlen] at hsel
    cases hflt : files.filter (fileMatches gameVersion) with
    | nil => rw [hflt] at hsel; simp at hsel
    | cons y t =>
      rw [hflt] at hsel hlen
      simp only [List.head?_cons, Option.some.injEq] at hsel
      have ht : t = [] := by
        cases t with
        | nil => rfl
        | cons z zs => simp at hlen
      subst ht
      have hmemSel : sel ∈ files.filter (fileMatches gameVersion) := by
        rw [hflt, ← hsel]; simp
      refine ⟨(List.mem_filter.mp hmemSel).2, ?_⟩
      intro f hf hmatch
      have hmemF : f ∈ files.filter (fileMatches gameVersion) :=
        List.mem_filter.mpr ⟨hf, hmatch⟩
      rw [hflt] at hmemF
      simp at hmemF
      rw [hmemF, hsel]

/-- Witness for the amended claim C3: of two candidates whose descriptions
both match the game version, the later revision selects the one uploaded
at timestamp 200, the most recent. -/
theorem nexus_tiebreak_selects_latest_witness :
    fileMatches (some "1.6")
        ⟨200, "build for 1.6", false, 200, "Main", "2.0.17"⟩ = true ∧
      ∀ f ∈ [(⟨100, "build for 1.6", false, 100, "Main", "2.0.16"⟩ : NexusModFile),
             ⟨200, "build for 1.6", false, 200, "Main", "2.0.17"⟩],
        fileMatches (some "1.6") f = true →
          f.uploaded_timestamp ≤
            (⟨200, "build for 1.6", false, 200, "Main", "2.0.17"⟩ :
              NexusModFile).uploaded_timestamp :=
  nexus_tiebreak_selects_latest (some "1.6")
    [⟨100, "build for 1.6", false, 100, "Main", "2.0.16"⟩,
     ⟨200, "build for 1.6", false, 200, "Main", "2.0.17"⟩]
    ⟨200, "build for 1.6", false, 200, "Main", "2.0.17"⟩ (by decide)

/-! ## Release-feed resolver (GitHub)

Model of getLatestReleases (src/src/nexusModsDownloader.ts lines 704 to
730; the earlier revision in src/unnamed/part_001 lines 147 to 173 keeps
the same prerelease and validity tests and compares against the static
latestVersion instead of the caller version).  Releases are filtered on
the prerelease flag, the semver validity of the tag and a lower version
bound, then sorted descending by the semver comparison of the tags. -/

structure GithubAsset where
  name : String
  browser_download_url : String
deriving DecidableEq, Repr

structure GithubRelease where
  tag_name : Option String
  prerelease : Bool
  published_at : Int
  assets : List GithubAsset
deriving DecidableEq, Repr

/-- Model of semver.valid applied to the possibly missing tag of a
release. -/
def tagVersion (rel : GithubRelease) : Option SemVer :=
  rel.tag_name.bind parseSemVer

/-- Version key of a release; the default value is only reached for tags
that fail the filter and never occurs in the lists the sort receives. -/
def tagVersionD (rel : GithubRelease) : SemVer := (tagVersion rel).getD ⟨0, 0, 0⟩

/-- The sort comparator of getLatestReleases: semver.compare of the right
tag against the left tag, giving descending version order. -/
def relCmpDesc (lhs rhs : GithubRelease) : Bool :=
  semverLe (tagVersionD rhs) (tagVersionD lhs)

/-- The release filter of getLatestReleases: not a prerelease, a tag that
parses as a semantic version, and a version at least the caller version
when one is supplied. -/
def releaseQualifies (currentVersion : Option SemVer) (rel : GithubRelease) : Bool :=
  !rel.prerelease && (tagVersion rel).isSome &&
    (currentVersion.isNone || semverGe (tagVersionD rel) (currentVersion.getD ⟨0, 0, 0⟩))

/-- getLatestReleases: filter then sort descending by tag version. -/
def getLatestReleases (releases : List GithubRelease) (currentVersion : Option SemVer) :
    List GithubRelease :=
  sortBy relCmpDesc (releases.filter (releaseQualifies currentVersion))

/-- Claim C4: no entry of the list getLatestReleases returns, and hence no
selected entry, has the prerelease flag set or a tag that fails the
semantic-version parse; prerelease entries are excluded from candidacy no
matter how recently they were published. -/
theorem release_feed_excludes_prerelease (releases : List GithubRelease)
    (currentVersion : Option SemVer) (rel : GithubRelease)
    (hmem : rel ∈ getLatestReleases releases currentVersion) :
    rel.prerelease = false ∧ (tagVersion rel).isSome = true := by
  unfold getLatestReleases at hmem
  have hflt : rel ∈ releases.filter (releaseQualifies currentVersion) :=
    (mem_sortBy _ _ _).mp hmem
  have hq : releaseQualifies currentVersion rel = true := (List.mem_filter.mp hflt).2
  unfold releaseQualifies at hq
  simp only [Bool.and_eq_true, Bool.not_eq_true'] at hq
  exact ⟨hq.1.1, hq.1.2⟩

/-- Witness for claim C4: of a prerelease published last, a release with
an unparsable tag, and one qualifying release, only the qualifying one
remains; the theorem applied to its membership yields the exclusions. -/
theorem release_feed_excludes_prerelease_witness :
    (getLatestReleases
        [⟨some "v2.0.0-beta", true, 3000, []⟩,
         ⟨some "not-a-version", false, 2000, []⟩,
         ⟨some "v1.5.0", false, 1000, []⟩] none =
      [⟨some "v1.5.0", false, 1000, []⟩]) ∧
      (⟨some "v1.5.0", false, 1000, []⟩ : GithubRelease).prerelease = false ∧
      (tagVersion ⟨some "v1.5.0", false, 1000, []⟩).isSome = true :=
  ⟨by decide,
    release_feed_excludes_prerelease
      [⟨some "v2.0.0-beta", true, 3000, []⟩,
       ⟨some "not-a-version", false, 2000, []⟩,
       ⟨some "v1.5.0", false, 1000, []⟩] none
      ⟨some "v1.5.0", false, 1000, []⟩ (by decide)⟩

theorem relCmpDesc_total : ∀ a b : GithubRelease,
    relCmpDesc a b = true ∨ relCmpDesc b a = true := by
  intro a b
  unfold relCmpDesc
  rcases semverLe_total (tagVersionD b) (tagVersionD a) with h | h
  · exact Or.inl h
  · exact Or.inr h

theorem relCmpDesc_trans : ∀ a b c : GithubRelease,
    relCmpDesc a b = true → relCmpDesc b c = true → relCmpDesc a c = true := by
  intro a b c hab hbc
  unfold relCmpDesc at *
  exact semverLe_trans hbc hab

/-- Claim C5: the first entry of the list getLatestReleases returns has a
tag version at least as great as that of every nonprerelease,
semver-parsable entry of the input, whatever the publish timestamps; an
older version published later is never preferred to a newer version
published earlier. -/
theorem release_feed_selects_greatest (releases : List GithubRelease)
    (currentVersion : Option SemVer) (first : GithubRelease)
    (hfirst : (getLatestReleases releases currentVersion).head? = some first) :
    ∀ rel ∈ releases, rel.prerelease = false → (tagVersion rel).isSome = true →
      semverGe (tagVersionD first) (tagVersionD rel) = true := by
  intro rel hmem hpre htag
  have hfm : first ∈ getLatestReleases releases currentVersion := by
    cases hs : getLatestReleases releases currentVersion with
    | nil => rw [hs] at hfirst; simp at hfirst
    | cons y t =>
      rw [hs] at hfirst
      simp only [List.head?_cons, Option.some.injEq] at hfirst
      simp [← hfirst]
  have hfq : releaseQualifies currentVersion first = true := by
    have hflt : first ∈ releases.filter (releaseQualifies currentVersion) :=
      (mem_sortBy _ _ _).mp hfm
    exact (List.mem_filter.mp hflt).2
  by_cases hq : releaseQualifies currentVersion rel = true
  · have hmemF : rel ∈ releases.filter (releaseQualifies currentVersion) :=
      List.mem_filter.mpr ⟨hmem, hq⟩
    have hle := sortBy_head_le relCmpDesc relCmpDesc_total relCmpDesc_trans hfirst rel hmemF
    unfold relCmpDesc at hle
    exact hle
  · -- the entry fails only the lower version bound, so it is below the
    -- caller version, which the selected entry is at least
    unfold releaseQualifies at hq hfq
    simp only [Bool.and_eq_true, Bool.not_eq_true', Bool.or_eq_true, Option.isNone_iff_eq_none]
      at hq hfq
    cases hcv : currentVersion with
    | none => exact absurd ⟨⟨hpre, htag⟩, Or.inl hcv⟩ hq
    | some cv =>
      have hrel_lt : sLt (tagVersionD rel) cv := by
        cases h : semverGe (tagVersionD rel) (currentVersion.getD ⟨0, 0, 0⟩) with
        | false =>
          rw [hcv] at h
          exact semverGe_false_iff.mp (by simpa using h)
        | true => exact absurd ⟨⟨hpre, htag⟩, Or.inr h⟩ hq
      have hfirst_ge : ¬ sLt (tagVersionD first) cv := by
        rcases hfq.2 with h | h
        · rw [hcv] at h; cases h
        · rw [hcv] at h
          exact semverGe_iff.mp (by simpa using h)
      -- chain the two comparisons
      rw [semverGe_iff]
      intro hFA
      exact hfirst_ge (sLt_trans hFA hrel_lt)

/-- Witness for claim C5: the release carrying the greater version 1.5.0
but the earlier publish timestamp is selected ahead of the release with
version 1.2.0 published later, and its version dominates. -/
theorem release_feed_selects_greatest_witness :
    (getLatestReleases
        [⟨some "v1.2.0", false, 5000, []⟩, ⟨some "v1.5.0", false, 1000, []⟩]
        none).head? = some ⟨some "v1.5.0", false, 1000, []⟩ ∧
      semverGe (tagVersionD ⟨some "v1.5.0", false, 1000, []⟩)
        (tagVersionD ⟨some "v1.2.0", false, 5000, []⟩) = true :=
  ⟨by decide,
    release_feed_selects_greatest
      [⟨some "v1.2.0", false, 5000, []⟩, ⟨some "v1.5.0", false, 1000, []⟩] none
      ⟨some "v1.5.0", false, 1000, []⟩ (by decide)
      ⟨some "v1.2.0", false, 5000, []⟩ (by decide) (by decide) (by decide)⟩

/-! ## GitHub query helper and rate-limit classification

Model of the query helper (src/src/nexusModsDownloader.ts lines 551 to
581, identical in src/unnamed/part_001 lines 13 to 43) and of the
checkForUpdates flow built on it (lines 779 to 805).  The helper reads the
x-ratelimit-remaining header with the default string 0, parses it with
parseInt, and rejects the ProcessCanceled kind for a 403 status with zero
remaining quota; otherwise it parses the body as JSON. -/

/-- Model of parseInt(s, 10): skip spaces, an optional sign, then leading
digits; none where JavaScript yields NaN. -/
def jsParseInt (s : String) : Option Int :=
  match s.data.dropWhile (fun c => c = ' ') with
  | '-' :: rest =>
    let ds := rest.takeWhile Char.isDigit
    if ds.isEmpty then none else some (-(natOfDigits ds : Int))
  | '+' :: rest =>
    let ds := rest.takeWhile Char.isDigit
    if ds.isEmpty then none else some ((natOfDigits ds : Int))
  | rest =>
    let ds := rest.takeWhile Char.isDigit
    if ds.isEmpty then none else some ((natOfDigits ds : Int))

/-- The JSON body of a release-feed response: an array of releases, or
some other JSON value (which getLatestReleases rejects as DataInvalid). -/
inductive GithubBody where
  | releases (rs : List GithubRelease)
  | notArray
deriving DecidableEq, Repr

/-- One release-feed HTTP response; the body is none where it is not
valid JSON. -/
structure GithubResponse where
  statusCode : Nat
  rateLimitRemaining : Option String
  rateLimitReset : Option String
  body : Option GithubBody
deriving DecidableEq, Repr

/-- How the query helper settles: the benign ProcessCanceled rejection for
an exhausted rate limit, a network-error rejection, a JSON-parse
rejection, or the parsed body. -/
inductive GithubQueryResult where
  | canceled
  | netError
  | parseError
  | ok (body : GithubBody)
deriving DecidableEq, Repr

/-- Model of the query helper; the request argument is the response the
network delivers, none for a connection error. -/
def queryGithub (response : Option GithubResponse) : GithubQueryResult :=
  match response with
  | none => .netError
  | some res =>
    if res.statusCode = 403 ∧ jsParseInt (res.rateLimitRemaining.getD "0") = some 0 then
      .canceled
    else
      match res.body with
      | none => .parseError
      | some b => .ok b

/-- What the user does with the update notification raised by
notifyUpdate: the Ignore action sets the ignore flag and rejects
UserCanceled, Download and Dismiss both resolve. -/
inductive UpdateChoice where
  | ignoreUpdate
  | download
  | dismiss
deriving DecidableEq, Repr

/-- How the start-download event settles. -/
inductive DlRes where
  | ok
  | alreadyDownloaded
  | failed
deriving DecidableEq, Repr

/-- How the start-install-download event settles. -/
inductive InstRes where
  | ok
  | canceled
  | failed
deriving DecidableEq, Repr

/-- The per-game data the release-feed flow consumes: the display name and
the asset-name pattern. -/
structure GameSupportGH where
  name : String
  assetMatches : String → Bool

/-- The external inputs one run of checkForUpdates consumes. -/
structure GithubEnv where
  response : Option GithubResponse
  updateChoice : UpdateChoice
  dl : DlRes
  inst : InstRes

/-- The observable outcome of one run of checkForUpdates: the version the
promise resolves, whether an error notification was shown, and whether the
ignore flag was set. -/
structure GHOutcome where
  resolved : String
  errorNotified : Bool
  ignoreSet : Bool
deriving DecidableEq, Repr

/-- Error notifications of the github startDownload helper (lines 732 to
767): a failed download or a failed install notifies; an
already-downloaded artifact is reused silently and a canceled install
stays silent. -/
def githubStartDownloadNotifies (dl : DlRes) (inst : InstRes) : Bool :=
  match dl with
  | .failed => true
  | _ =>
    match inst with
    | .failed => true
    | _ => false

/-- Model of resolveDownloadLink (lines 769 to 777): the download url of
the first asset of the release that matches the per-game pattern. -/
def resolveDownloadLink (rel : GithubRelease) (gs : GameSupportGH) : Option String :=
  ((rel.assets.filter (fun a => gs.assetMatches a.name)).head?).map
    (fun a => a.browser_download_url)

/-- Model of checkForUpdates (lines 779 to 805).  Every branch mirrors a
control path of the source: a ProcessCanceled or UserCanceled rejection
resolves the caller version silently; every other rejection shows the
error notification and resolves the caller version; an empty qualifying
list makes the read of the first tag throw, which the generic catch turns
into an error notification; an unparsable first tag resolves the caller
version without notifying; a greater first version prompts the user and
then downloads. -/
def githubCheckForUpdates (gs : GameSupportGH) (currentVersion : SemVer)
    (env : GithubEnv) : GHOutcome :=
  match queryGithub env.response with
  | .canceled => ⟨semverToString currentVersion, false, false⟩
  | .netError => ⟨semverToString currentVersion, true, false⟩
  | .parseError => ⟨semverToString currentVersion, true, false⟩
  | .ok .notArray => ⟨semverToString currentVersion, true, false⟩
  | .ok (.releases rs) =>
    match (getLatestReleases rs (some currentVersion)).head? with
    | none => ⟨semverToString currentVersion, true, false⟩
    | some first =>
      match resolveDownloadLink first gs with
      | none => ⟨semverToString currentVersion, true, false⟩
      | some _ =>
        match tagVersion first with
        | none => ⟨semverToString currentVersion, false, false⟩
        | some mrv =>
          if semverGt mrv currentVersion then
            match env.updateChoice with
            | .ignoreUpdate => ⟨semverToString currentVersion, false, true⟩
            | _ =>
              ⟨first.tag_name.getD "", githubStartDownloadNotifies env.dl env.inst, false⟩
          else ⟨semverToString currentVersion, false, false⟩

/-- Claim C6: a release-feed response with HTTP status 403 and a
remaining-quota header parsing to zero is classified as the benign
ProcessCanceled kind, distinct from the network-failure kind, and the
update check then resolves to the installed version with no error
notification and no change to the ignore flag. -/
theorem rate_limit_benign (gs : GameSupportGH) (currentVersion : SemVer)
    (env : GithubEnv) (res : GithubResponse)
    (hres : env.response = some res) (hstatus : res.statusCode = 403)
    (hquota : jsParseInt (res.rateLimitRemaining.getD "0") = some 0) :
    queryGithub env.response = .canceled ∧
      githubCheckForUpdates gs currentVersion env =
        ⟨semverToString currentVersion, false, false⟩ := by
  have hq : queryGithub env.response = .canceled := by
    rw [hres]
    have hdef : queryGithub (some res) =
        if res.statusCode = 403 ∧ jsParseInt (res.rateLimitRemaining.getD "0") = some 0 then
          GithubQueryResult.canceled
        else
          match res.body with
          | none => .parseError
          | some b => .ok b := rfl
    rw [hdef, if_pos ⟨hstatus, hquota⟩]
  refine ⟨hq, ?_⟩
  unfold githubCheckForUpdates
  rw [hq]

/-- Witness for claim C6: a 403 response whose remaining-quota header is
the string 0 resolves the installed version 5.1.6 silently. -/
theorem rate_limit_benign_witness :
    queryGithub (some ⟨403, some "0", some "1600000000", some .notArray⟩) =
        GithubQueryResult.canceled ∧
      githubCheckForUpdates ⟨"New Vegas Script Extender (NVSE)", fun _ => true⟩
          ⟨5, 1, 6⟩
          ⟨some ⟨403, some "0", some "1600000000", some .notArray⟩,
            .download, .ok, .ok⟩ =
        ⟨semverToString ⟨5, 1, 6⟩, false, false⟩ :=
  rate_limit_benign ⟨"New Vegas Script Extender (NVSE)", fun _ => true⟩ ⟨5, 1, 6⟩
    ⟨some ⟨403, some "0", some "1600000000", some .notArray⟩, .download, .ok, .ok⟩
    ⟨403, some "0", some "1600000000", some .notArray⟩ rfl rfl (by decide)

/-- Claim C10 (amended): the remaining-quota header defaults to the string
0 when absent, so an HTTP 403 response carrying no rate-limit headers is
classified as the benign rate-limited cancellation kind rather than as a
network or parse failure; a 403 whose remaining-quota header parses to a
nonzero number is not so classified (see the counterexample). -/
theorem forbidden_without_headers_rate_limited (res : GithubResponse)
    (hstatus : res.statusCode = 403) (hheader : res.rateLimitRemaining = none) :
    queryGithub (some res) = .canceled := by
  have hcond : res.statusCode = 403 ∧
      jsParseInt (res.rateLimitRemaining.getD "0") = some 0 := by
    rw [hstatus, hheader]
    exact ⟨rfl, by decide⟩
  have hdef : queryGithub (some res) =
      if res.statusCode = 403 ∧ jsParseInt (res.rateLimitRemaining.getD "0") = some 0 then
        GithubQueryResult.canceled
      else
        match res.body with
        | none => .parseError
        | some b => .ok b := rfl
  rw [hdef, if_pos hcond]

/-- Witness for the amended claim C10: a bare 403 with no headers at all
is classified as the cancellation kind. -/
theorem forbidden_without_headers_rate_limited_witness :
    queryGithub (some ⟨403, none, none, some .notArray⟩) = .canceled :=
  forbidden_without_headers_rate_limited ⟨403, none, none, some .notArray⟩ rfl rfl

/-- Claim C10 counterexample: an HTTP 403 response whose remaining-quota
header reads 5 is not classified as the rate-limited cancellation; the
query resolves its parsed body, so not every 403 is treated as benign. -/
theorem forbidden_with_quota_not_canceled :
    queryGithub (some ⟨403, some "5", none, some .notArray⟩) =
        GithubQueryResult.ok .notArray ∧
      queryGithub (some ⟨403, some "5", none, some .notArray⟩) ≠
        GithubQueryResult.canceled := by
  refine ⟨by decide, by decide⟩

/-! ## Scrape resolver (silverlock websites)

Model of checkForUpdate in src/src/index.ts (lines 223 to 284) and of the
later revision in src/unnamed/part_001 (lines 442 to 505), which differs
only in its fallback: the installed version instead of the cached latest,
and no cache write.  The response models the network input: a connection
error, or a status code together with the result of matching the per-game
pattern against the page body. -/

inductive ScrapeResponse where
  | networkError
  | http (statusCode : Nat) (matched : Option String)
deriving DecidableEq, Repr

/-- The character class of the third capture of the version-token pattern,
digits and letters under the case-insensitive flag. -/
def isTokenAlnum (c : Char) : Bool :=
  c.isDigit || decide ('a' ≤ c ∧ c ≤ 'z') || decide ('A' ≤ c ∧ c ≤ 'Z')

/-- One attempt of the version-token pattern right after an underscore:
one or more digits, an underscore, one or more digits, an underscore, one
or more alphanumerics.  The digit runs are maximal, as the greedy engine
takes them, and no backtracking can help since the classes exclude the
underscore. -/
def tryVersionToken (l : List Char) : Option (List Char) :=
  let d1 := l.takeWhile Char.isDigit
  let r1 := l.dropWhile Char.isDigit
  if d1.isEmpty then none
  else
    match r1 with
    | '_' :: r2 =>
      let d2 := r2.takeWhile Char.isDigit
      let r3 := r2.dropWhile Char.isDigit
      if d2.isEmpty then none
      else
        match r3 with
        | '_' :: r4 =>
          let d3 := r4.takeWhile isTokenAlnum
          if d3.isEmpty then none
          else some (d1 ++ '_' :: (d2 ++ '_' :: d3))
        | _ => none
    | _ => none

/-- First match of the version-token pattern in a filename: scan left to
right, trying the pattern at every underscore, as the engine scans every
index. -/
def matchVersionToken : List Char → Option (List Char)
  | [] => none
  | '_' :: rest =>
    (match tryVersionToken rest with
      | some tok => some tok
      | none => matchVersionToken rest)
  | _ :: rest => matchVersionToken rest

/-- The version the scrape derives from a matched urlpath: extract the
version token, normalize it, then accept it as a semantic version or
coerce it.  The split on the path separator ahead of the extraction
leaves the token unchanged, since the token sits in the file-name part
and contains no separator.  The result is none where any step throws or
yields nothing, which the try/catch of checkForUpdate turns into the
fallback resolution. -/
def scrapeVersionOf (urlpath : String) : Option SemVer :=
  match matchVersionToken urlpath.data with
  | none => none
  | some tok =>
    let nv := normalizeToken ⟨tok⟩
    match parseSemVer nv with
    | some v => some v
    | none => coerceSemVer nv

/-- The observable outcome of one scrape checkForUpdate run: the version
the promise resolves, whether notifyNewVersion was called, and the cached
latest version afterwards. -/
structure ScrapeOutcome where
  resolved : String
  notified : Bool
  cachedAfter : String
deriving DecidableEq, Repr

/-- Model of checkForUpdate of src/src/index.ts: on any failure the
promise resolves the cached latest version with no notification (the
resolve calls at lines 227, 261, 276 and 281); on success the cache is
updated, the user is notified exactly when the scraped version is
strictly greater than the installed one (line 269), and the scraped
version resolves. -/
def checkForUpdateScrape (cached : String) (installed : SemVer)
    (resp : ScrapeResponse) : ScrapeOutcome :=
  match resp with
  | .networkError => ⟨cached, false, cached⟩
  | .http statusCode matched =>
    if statusCode ≠ 200 then ⟨cached, false, cached⟩
    else
      match matched with
      | none => ⟨cached, false, cached⟩
      | some urlpath =>
        match scrapeVersionOf urlpath with
        | none => ⟨cached, false, cached⟩
        | some latest =>
          ⟨semverToString latest, semverGt latest installed, semverToString latest⟩

/-- The outcome of the part_001 revision, which keeps no cache. -/
structure ScrapeOutcomeV3 where
  resolved : String
  notified : Bool
deriving DecidableEq, Repr

/-- Model of the checkForUpdate revision of src/unnamed/part_001: the same
control flow with the installed version as every fallback. -/
def checkForUpdateScrapeV3 (installed : SemVer) (resp : ScrapeResponse) :
    ScrapeOutcomeV3 :=
  match resp with
  | .networkError => ⟨semverToString installed, false⟩
  | .http statusCode matched =>
    if statusCode ≠ 200 then ⟨semverToString installed, false⟩
    else
      match matched with
      | none => ⟨semverToString installed, false⟩
      | some urlpath =>
        match scrapeVersionOf urlpath with
        | none => ⟨semverToString installed, false⟩
        | some latest => ⟨semverToString latest, semverGt latest installed⟩

/-- The failure modes of one scrape attempt: connection error, a status
other than 200, a pattern mismatch on the page body, or a version that
fails both the strict parse and the coercion. -/
def scrapeRespFails : ScrapeResponse → Bool
  | .networkError => true
  | .http statusCode matched =>
    statusCode ≠ 200 ||
      match matched with
      | none => true
      | some urlpath => (scrapeVersionOf urlpath).isNone

/-- Claim C9: the scrape checkForUpdate settles on every input, never
rejecting past the update decision (both embeddings are total functions
because every control path of the source calls resolve): on every failure
mode both revisions resolve their fallback version with no notification,
the cached latest in src/src/index.ts and the installed version in
src/unnamed/part_001, degrading to a no-update-detected outcome. -/
theorem scrape_failures_resolve_fallback (cached : String) (installed : SemVer)
    (resp : ScrapeResponse) (hfail : scrapeRespFails resp = true) :
    checkForUpdateScrape cached installed resp = ⟨cached, false, cached⟩ ∧
      checkForUpdateScrapeV3 installed resp = ⟨semverToString installed, false⟩ := by
  cases resp with
  | networkError => exact ⟨rfl, rfl⟩
  | http statusCode matched =>
    by_cases hs : statusCode = 200
    · subst hs
      cases matched with
      | none => exact ⟨rfl, rfl⟩
      | some urlpath =>
        have hv : scrapeVersionOf urlpath = none := by
          simp only [scrapeRespFails, Bool.or_eq_true, decide_eq_true_eq] at hfail
          rcases hfail with h | h
          · exact absurd rfl h
          · exact Option.isNone_iff_eq_none.mp h
        refine ⟨?_, ?_⟩
        · simp [checkForUpdateScrape, hv]
        · simp [checkForUpdateScrapeV3, hv]
    · refine ⟨?_, ?_⟩
      · simp [checkForUpdateScrape, hs]
      · simp [checkForUpdateScrapeV3, hs]

/-- Witness for claim C9: a 500 status with no pattern match resolves the
cached 1.7.3 in the one revision and the installed 1.6.0 in the other,
with no notification from either. -/
theorem scrape_failures_resolve_fallback_witness :
    checkForUpdateScrape "1.7.3" ⟨1, 6, 0⟩ (.http 500 none) = ⟨"1.7.3", false, "1.7.3"⟩ ∧
      checkForUpdateScrapeV3 ⟨1, 6, 0⟩ (.http 500 none) =
        ⟨semverToString ⟨1, 6, 0⟩, false⟩ :=
  scrape_failures_resolve_fallback "1.7.3" ⟨1, 6, 0⟩ (.http 500 none) (by decide)

/-! ## Update decision and mod-version check (scrape source) -/

/-- One mod as the version check sees it: the identifier, the
script-extender attribute, the enabled state of the active profile, and
the version attribute. -/
structure XseMod where
  id : String
  scriptExtender : Bool
  enabled : Bool
  version : Option String
deriving DecidableEq, Repr

/-- The attribute updates onCheckModVersion dispatches (src/src/index.ts
lines 152 to 175): when the check yielded nothing or an exact match of the
installed version, nothing; otherwise every enabled script-extender mod
whose version attribute differs from the resolved latest gets its
newestVersion attribute set. -/
def onCheckModVersionUpdates (installedStr : String) (latest : Option String)
    (mods : List XseMod) : List String :=
  match latest with
  | none => []
  | some l =>
    if l = "" ∨ l = installedStr then []
    else
      ((mods.filter (fun m => m.scriptExtender && m.enabled)).filter
        (fun m => m.version ≠ some l)).map (fun m => m.id)

/-- The outcome of one onCheckModVersion run: whether the update
notification was raised inside checkForUpdate, and which mods got their
attributes rewritten. -/
structure CheckModOutcome where
  notified : Bool
  attrUpdates : List String
deriving DecidableEq, Repr

/-- The session state the scrape flow mutates: the ignore flag and the
cached latest version, both process lifetime only. -/
structure ScrapeSession where
  ignore : Bool
  latestVersion : String
deriving DecidableEq, Repr

/-- Model of onCheckModVersion of src/src/index.ts (lines 137 to 176):
the handler never consults the ignore flag; it runs the scrape
checkForUpdate, which notifies on a strictly greater version, then
dispatches the attribute updates. -/
def onCheckModVersionV1 (st : ScrapeSession) (installed : Option SemVer)
    (resp : ScrapeResponse) (mods : List XseMod) : CheckModOutcome :=
  match installed with
  | none => ⟨false, []⟩
  | some inst =>
    let o := checkForUpdateScrape st.latestVersion inst resp
    ⟨o.notified, onCheckModVersionUpdates (semverToString inst) (some o.resolved) mods⟩

theorem sLt_irrefl (a : SemVer) : ¬ sLt a a := by
  unfold sLt; omega

/-- Claim C1 (amended): for every pair reaching the update decision the
notification is raised exactly when the scraped latest is strictly
greater than the installed version under major.minor.patch tuple order,
and an equal latest is a full no-op (no notification, no attribute
update); a strictly lesser latest raises no notification but still
rewrites the newestVersion attribute of every enabled script-extender mod
whose version attribute differs from it, so the lesser case is not a
no-op (see the counterexample). -/
theorem update_decision_notify_iff_greater (cached : String)
    (installed latest : SemVer) (urlpath : String) (mods : List XseMod)
    (hver : scrapeVersionOf urlpath = some latest) :
    ((checkForUpdateScrape cached installed (.http 200 (some urlpath))).notified = true ↔
        sLt installed latest) ∧
      (latest = installed →
        (onCheckModVersionV1 ⟨false, cached⟩ (some installed)
            (.http 200 (some urlpath)) mods).notified = false ∧
          (onCheckModVersionV1 ⟨false, cached⟩ (some installed)
            (.http 200 (some urlpath)) mods).attrUpdates = []) := by
  have houtcome : checkForUpdateScrape cached installed (.http 200 (some urlpath)) =
      ⟨semverToString latest, semverGt latest installed, semverToString latest⟩ := by
    simp [checkForUpdateScrape, hver]
  constructor
  · rw [houtcome]
    simp [semverGt, semverLt]
  · rintro rfl
    constructor
    · simp [onCheckModVersionV1, houtcome, semverGt, semverLt, sLt_irrefl]
    · simp [onCheckModVersionV1, houtcome, onCheckModVersionUpdates]

/-- Witness for the amended claim C1 at the scraped filename
beta/skse_1_7_3.7z with the same version 1.7.3 installed: no notification
and no attribute update. -/
theorem update_decision_notify_iff_greater_witness :
    ((checkForUpdateScrape "1.7.3" ⟨1, 7, 3⟩
          (.http 200 (some "beta/skse_1_7_3.7z"))).notified = true ↔
        sLt ⟨1, 7, 3⟩ ⟨1, 7, 3⟩) ∧
      ((onCheckModVersionV1 ⟨false, "1.7.3"⟩ (some ⟨1, 7, 3⟩)
            (.http 200 (some "beta/skse_1_7_3.7z"))
            [⟨"skse", true, true, some "1.7.3"⟩]).notified = false ∧
        (onCheckModVersionV1 ⟨false, "1.7.3"⟩ (some ⟨1, 7, 3⟩)
            (.http 200 (some "beta/skse_1_7_3.7z"))
            [⟨"skse", true, true, some "1.7.3"⟩]).attrUpdates = []) :=
  ⟨(update_decision_notify_iff_greater "1.7.3" ⟨1, 7, 3⟩ ⟨1, 7, 3⟩
      "beta/skse_1_7_3.7z" [⟨"skse", true, true, some "1.7.3"⟩] (by decide)).1,
    (update_decision_notify_iff_greater "1.7.3" ⟨1, 7, 3⟩ ⟨1, 7, 3⟩
      "beta/skse_1_7_3.7z" [⟨"skse", true, true, some "1.7.3"⟩] (by decide)).2 rfl⟩

/-- Claim C1 counterexample: with installed version 1.6.0 and scraped
latest 1.0.3, strictly lesser, no notification is raised but the
mod-version check still dispatches an attribute update for the enabled
script-extender mod, so the lesser case is not the no-op the claim
states. -/
theorem update_decision_lesser_not_noop :
    sLt ⟨1, 0, 3⟩ ⟨1, 6, 0⟩ ∧
      (onCheckModVersionV1 ⟨false, "1.7.3"⟩ (some ⟨1, 6, 0⟩)
          (.http 200 (some "beta/skse_1_0_3.7z"))
          [⟨"skse", true, true, some "1.6.0"⟩]).notified = false ∧
      (onCheckModVersionV1 ⟨false, "1.7.3"⟩ (some ⟨1, 6, 0⟩)
          (.http 200 (some "beta/skse_1_0_3.7z"))
          [⟨"skse", true, true, some "1.6.0"⟩]).attrUpdates = ["skse"] := by
  refine ⟨by decide, by decide, by decide⟩

/-- Model of the ignore-flag gate of onGameModeActivated in
src/src/index.ts (lines 178 to 221): with the ignore flag set the handler
returns before any notification; with script-extender mods present it
also returns; a missing extender notifies the not-installed prompt; an
installed one is compared against the cached latest when one is held (an
invalid cached string makes semver.gt throw inside the async handler, so
no notification is raised), and freshly scraped otherwise. -/
def onGameModeActivatedNotifiesV1 (st : ScrapeSession) (hasXseMods : Bool)
    (installed : Option SemVer) (resp : ScrapeResponse) : Bool :=
  if st.ignore then false
  else if hasXseMods then false
  else
    match installed with
    | none => true
    | some inst =>
      if st.latestVersion ≠ "" then
        match parseSemVer st.latestVersion with
        | some cachedV => semverGt cachedV inst
        | none => false
      else (checkForUpdateScrape st.latestVersion inst resp).notified

/-- Claim C8: the ignore flag suppresses the game-mode-activation trigger
of src/src/index.ts, but the mod-version-check trigger of the same
revision never consults it: with the flag set, a scrape finding the newer
1.7.3 over the installed 1.6.0 still raises the update notification.
This contradicts the dialog text of the same file promising no further
reminder until restart; the later revision in src/unnamed/part_002 (lines
170 to 172) adds the missing guard. -/
theorem ignore_flag_not_consulted_by_mod_version_check :
    (∀ (lv : String) (hasXseMods : Bool) (installed : Option SemVer)
        (resp : ScrapeResponse),
        onGameModeActivatedNotifiesV1 ⟨true, lv⟩ hasXseMods installed resp = false) ∧
      (onCheckModVersionV1 ⟨true, "1.7.3"⟩ (some ⟨1, 6, 0⟩)
          (.http 200 (some "beta/skse_1_7_3.7z"))
          [⟨"skse", true, true, some "1.6.0"⟩]).notified = true := by
  constructor
  · intro lv hasXseMods installed resp
    simp [onGameModeActivatedNotifiesV1]
  · decide

/-! ## Acquisition workflow (Nexus Mods source)

Model of downloadScriptExtender and startDownload of
src/src/nexusModsDownloader.ts, the revision with the file-selection
dialog (lines 217 to 369); the catch of the earliest revision (lines 76
to 85) has the same shape.  The environment gathers every external input
one run consumes; the outcome records every observable effect. -/

/-- What the user does with the consent prompt of promptInstall: the
Ignore action sets the ignore flag and rejects UserCanceled, the Download
action resolves. -/
inductive ConsentChoice where
  | ignore
  | download
deriving DecidableEq, Repr

/-- What the user does with the file-selection dialog: the Cancel button,
or the Download button with the per-file checkbox states keyed by file
identifier. -/
inductive DialogChoice where
  | cancel
  | choose (input : List (Nat × Bool))
deriving DecidableEq, Repr

/-- The external inputs one run of the Nexus flow consumes. -/
structure NexusEnv where
  consent : ConsentChoice
  loggedIn : Bool
  premium : Bool
  apiFiles : Option (List NexusModFile)
  gameVersion : Option String
  dialog : DialogChoice
  dl : DlRes
  inst : InstRes
deriving Repr

/-- Effects performed inside startDownload. -/
structure SDEff where
  openedModPage : Bool
  dialogShown : Bool
  downloadStarted : Bool
  modEnabled : Bool
deriving DecidableEq, Repr

/-- How startDownload settles: a promise rejection (benign marks the
UserCanceled and ProcessCanceled kinds) or a returned value. -/
inductive SDOut where
  | thrown (benign : Bool) (eff : SDEff)
  | value (modId : Option String) (eff : SDEff)
deriving DecidableEq, Repr

/-- The premium gate and the download chain after the file id is known
(lines 344 to 367): free users get the file page opened; for premium
users a download error rejects, an install cancellation rejects the
benign kind, an install error rejects, and a successful install enables
the mod and resolves its id. -/
def nexusPremiumStep (env : NexusEnv) (eff : SDEff) : SDOut :=
  if !env.premium then
    .value none ⟨true, eff.dialogShown, false, false⟩
  else
    match env.dl with
    | .ok =>
      match env.inst with
      | .ok => .value (some "modId") ⟨eff.openedModPage, eff.dialogShown, true, true⟩
      | .canceled => .thrown true ⟨eff.openedModPage, eff.dialogShown, true, false⟩
      | .failed => .thrown false ⟨eff.openedModPage, eff.dialogShown, true, false⟩
    | _ => .thrown false ⟨eff.openedModPage, eff.dialogShown, true, false⟩

/-- Model of startDownload (lines 266 to 369).  Missing Nexus data
rejects ArgumentInvalid (line 272); a logged-out user gets the mod page
opened (line 284); a failed or empty file listing is DataInvalid, caught
at line 339 by opening the mod page; one or more filter candidates go
through the descending-timestamp tie-break to the premium gate; no
candidate opens the file-selection dialog, whose Cancel throws
UserCanceled, swallowed at line 338 by returning undefined, and whose
Download resolves the chosen id against the empty candidate list, so the
lookup fails as DataInvalid and the mod page opens. -/
def nexusStartDownload (hasNexusInfo : Bool) (env : NexusEnv) : SDOut :=
  if !hasNexusInfo then
    .thrown false ⟨false, false, false, false⟩
  else if !env.loggedIn then
    .value none ⟨true, false, false, false⟩
  else
    let files := env.apiFiles.getD []
    if files.isEmpty then
      .value none ⟨true, false, false, false⟩
    else
      let modFiles := files.filter (fileMatches env.gameVersion)
      let sorted := if 1 < modFiles.length then sortBy tsDesc modFiles else modFiles
      match sorted.head? with
      | some _ => nexusPremiumStep env ⟨false, false, false, false⟩
      | none =>
        match env.dialog with
        | .cancel =>
          .value none ⟨false, true, false, false⟩
        | .choose input =>
          match input.filter (fun i => i.2) with
          | [s] =>
            match modFiles.find? (fun m => m.file_id = s.1) with
            | some _ => nexusPremiumStep env ⟨false, true, false, false⟩
            | none => .value none ⟨true, true, false, false⟩
          | _ => .value none ⟨true, true, false, false⟩

/-- How one run of downloadScriptExtender concluded: through the benign
catch branch for the cancellation kinds, through the error-notification
branch, or by completing the try block. -/
inductive FlowTerminal where
  | canceled
  | failed
  | completed
deriving DecidableEq, Repr

/-- The observable outcome of one run of the Nexus downloadScriptExtender
flow. -/
structure NexusOutcome where
  terminal : FlowTerminal
  errorNotified : Bool
  ignoreSet : Bool
  openedModPage : Bool
  dialogShown : Bool
  downloadStarted : Bool
  modEnabled : Bool
  deployed : Bool
  toolsRefreshed : Bool
  primaryToolSet : Bool
deriving DecidableEq, Repr

/-- Model of the Nexus downloadScriptExtender (lines 217 to 264): the
consent prompt, then startDownload, then the single-mod deployment when a
mod id came back, the tools refresh and the primary-tool assignment; the
catch at lines 253 to 262 resolves silently for UserCanceled and
ProcessCanceled and shows the error notification otherwise. -/
def downloadScriptExtenderNexus (hasNexusInfo : Bool) (env : NexusEnv) : NexusOutcome :=
  match env.consent with
  | .ignore =>
    ⟨.canceled, false, true, false, false, false, false, false, false, false⟩
  | .download =>
    match nexusStartDownload hasNexusInfo env with
    | .thrown benign eff =>
      if benign then
        ⟨.canceled, false, false, eff.openedModPage, eff.dialogShown,
          eff.downloadStarted, eff.modEnabled, false, false, false⟩
      else
        ⟨.failed, true, false, eff.openedModPage, eff.dialogShown,
          eff.downloadStarted, eff.modEnabled, false, false, false⟩
    | .value modId eff =>
      ⟨.completed, false, false, eff.openedModPage, eff.dialogShown,
        eff.downloadStarted, eff.modEnabled, modId.isSome, true, true⟩

/-- The observable outcome of the github downloadScriptExtender flow. -/
structure GHDlOutcome where
  errorNotified : Bool
  ignoreSet : Bool
  downloadStarted : Bool
deriving DecidableEq, Repr

/-- The external inputs of the github downloadScriptExtender flow. -/
structure GithubDlEnv where
  response : Option GithubResponse
  consent : ConsentChoice
  dl : DlRes
  inst : InstRes

/-- Model of the github downloadScriptExtender (src/src/nexusModsDownloader.ts
lines 807 to 829, src/unnamed/part_001 lines 247 to 314): a missing feed
url rejects ArgumentInvalid; the release query, the link resolution and
the consent gate run inside one catch that resolves silently for the
cancellation kinds; consent leads to the download chain whose failures
notify from inside their callbacks. -/
def githubDownloadScriptExtender (hasUrl : Bool) (gs : GameSupportGH)
    (env : GithubDlEnv) : GHDlOutcome :=
  if !hasUrl then ⟨true, false, false⟩
  else
    match queryGithub env.response with
    | .canceled => ⟨false, false, false⟩
    | .netError => ⟨true, false, false⟩
    | .parseError => ⟨true, false, false⟩
    | .ok .notArray => ⟨true, false, false⟩
    | .ok (.releases rs) =>
      match (getLatestReleases rs none).head? with
      | none => ⟨true, false, false⟩
      | some first =>
        match resolveDownloadLink first gs with
        | none => ⟨true, false, false⟩
        | some _ =>
          match env.consent with
          | .ignore => ⟨false, true, false⟩
          | .download => ⟨githubStartDownloadNotifies env.dl env.inst, false, true⟩

/-- Claim C7 counterexample: the user cancels the file-selection dialog,
one of the cancellation points of the acquisition workflow; no error
notification is raised, but the workflow does not unwind: it still
refreshes the discovered tools and assigns the primary tool, side effects
beyond the session ignore flag. -/
theorem dialog_cancel_side_effects :
    (downloadScriptExtenderNexus true
        ⟨.download, true, true, some [⟨77, "build for 2.1", false, 50, "Main", "2.1.0"⟩],
          some "1.6", .cancel, .ok, .ok⟩).dialogShown = true ∧
      (downloadScriptExtenderNexus true
        ⟨.download, true, true, some [⟨77, "build for 2.1", false, 50, "Main", "2.1.0"⟩],
          some "1.6", .cancel, .ok, .ok⟩).errorNotified = false ∧
      (downloadScriptExtenderNexus true
        ⟨.download, true, true, some [⟨77, "build for 2.1", false, 50, "Main", "2.1.0"⟩],
          some "1.6", .cancel, .ok, .ok⟩).ignoreSet = false ∧
      (downloadScriptExtenderNexus true
        ⟨.download, true, true, some [⟨77, "build for 2.1", false, 50, "Main", "2.1.0"⟩],
          some "1.6", .cancel, .ok, .ok⟩).toolsRefreshed = true ∧
      (downloadScriptExtenderNexus true
        ⟨.download, true, true, some [⟨77, "build for 2.1", false, 50, "Main", "2.1.0"⟩],
          some "1.6", .cancel, .ok, .ok⟩).primaryToolSet = true := by
  refine ⟨by decide, by decide, by decide, by decide, by decide⟩

/-- The effects carried by a startDownload result. -/
def sdEff : SDOut → SDEff
  | .thrown _ eff => eff
  | .value _ eff => eff

theorem sdEff_premium (env : NexusEnv) (eff : SDEff) :
    (sdEff (nexusPremiumStep env eff)).dialogShown = eff.dialogShown := by
  unfold nexusPremiumStep
  split
  · rfl
  · split
    · split <;> rfl
    · rfl

/-- With the dialog answered by Cancel, startDownload either took the
dialog-cancel leaf, returning undefined with only the dialog shown, or
never showed the dialog at all. -/
theorem nexusStartDownload_cancel_shape (hasNexusInfo : Bool) (env : NexusEnv)
    (hdial : env.dialog = .cancel) :
    nexusStartDownload hasNexusInfo env = .value none ⟨false, true, false, false⟩ ∨
      (sdEff (nexusStartDownload hasNexusInfo env)).dialogShown = false := by
  cases hni : hasNexusInfo with
  | false => exact Or.inr (by simp [nexusStartDownload, sdEff])
  | true =>
    cases hlog : env.loggedIn with
    | false => exact Or.inr (by simp [nexusStartDownload, hlog, sdEff])
    | true =>
      cases hemp : (env.apiFiles.getD []).isEmpty with
      | true => exact Or.inr (by simp [nexusStartDownload, hlog, hemp, sdEff])
      | false =>
        cases hh : (if 1 <
              (List.filter (fileMatches env.gameVersion) (env.apiFiles.getD [])).length
            then sortBy tsDesc
              (List.filter (fileMatches env.gameVersion) (env.apiFiles.getD []))
            else
              List.filter (fileMatches env.gameVersion) (env.apiFiles.getD [])).head? with
        | some mf =>
          refine Or.inr ?_
          have hred : nexusStartDownload true env =
              nexusPremiumStep env ⟨false, false, false, false⟩ := by
            simp [nexusStartDownload, hlog, hemp, hh]
          rw [hred, sdEff_premium]
        | none =>
          refine Or.inl ?_
          simp [nexusStartDownload, hlog, hemp, hh, hdial]

/-- Claim C7 (amended): a cancellation that unwinds to the catch (consent
dismissal or a cancelled install) terminates benignly with no error
notification and none of the post-install steps, the consent dismissal
leaving no effect beyond the session ignore flag; a cancel of the
file-selection dialog also raises no error notification but is swallowed
inside startDownload instead of unwinding, so the tools refresh and the
primary-tool assignment still run; in the github flow a consent dismissal
(the only ignore-setting step) likewise ends with no error notification
and no download. -/
theorem cancellation_benign (hasNexusInfo : Bool) (env : NexusEnv)
    (hasUrl : Bool) (gs : GameSupportGH) (genv : GithubDlEnv) :
    ((downloadScriptExtenderNexus hasNexusInfo env).terminal = .canceled →
        (downloadScriptExtenderNexus hasNexusInfo env).errorNotified = false ∧
          (downloadScriptExtenderNexus hasNexusInfo env).deployed = false ∧
          (downloadScriptExtenderNexus hasNexusInfo env).toolsRefreshed = false ∧
          (downloadScriptExtenderNexus hasNexusInfo env).primaryToolSet = false) ∧
      (env.consent = .ignore →
        downloadScriptExtenderNexus hasNexusInfo env =
          ⟨.canceled, false, true, false, false, false, false, false, false, false⟩) ∧
      (env.consent = .download → env.dialog = .cancel →
        (downloadScriptExtenderNexus hasNexusInfo env).dialogShown = true →
          (downloadScriptExtenderNexus hasNexusInfo env).errorNotified = false ∧
            (downloadScriptExtenderNexus hasNexusInfo env).ignoreSet = false ∧
            (downloadScriptExtenderNexus hasNexusInfo env).downloadStarted = false ∧
            (downloadScriptExtenderNexus hasNexusInfo env).toolsRefreshed = true ∧
            (downloadScriptExtenderNexus hasNexusInfo env).primaryToolSet = true) ∧
      ((githubDownloadScriptExtender hasUrl gs genv).ignoreSet = true →
        githubDownloadScriptExtender hasUrl gs genv = ⟨false, true, false⟩) := by
  refine ⟨?_, ?_, ?_, ?_⟩
  · intro hterm
    cases hc : env.consent with
    | ignore => simp [downloadScriptExtenderNexus, hc]
    | download =>
      cases hsd : nexusStartDownload hasNexusInfo env with
      | thrown benign eff =>
        cases benign with
        | true => simp [downloadScriptExtenderNexus, hc, hsd]
        | false => simp [downloadScriptExtenderNexus, hc, hsd] at hterm
      | value modId eff => simp [downloadScriptExtenderNexus, hc, hsd] at hterm
  · intro hc
    simp [downloadScriptExtenderNexus, hc]
  · intro hc hdial hshown
    rcases nexusStartDownload_cancel_shape hasNexusInfo env hdial with hsd | hfalse
    · simp [downloadScriptExtenderNexus, hc, hsd]
    · exfalso
      have hout : (downloadScriptExtenderNexus hasNexusInfo env).dialogShown =
          (sdEff (nexusStartDownload hasNexusInfo env)).dialogShown := by
        cases hsd : nexusStartDownload hasNexusInfo env with
        | thrown benign eff =>
          cases benign with
          | true => simp [downloadScriptExtenderNexus, hc, hsd, sdEff]
          | false => simp [downloadScriptExtenderNexus, hc, hsd, sdEff]
        | value modId eff => simp [downloadScriptExtenderNexus, hc, hsd, sdEff]
      rw [hout, hfalse] at hshown
      simp at hshown
  · intro hign
    cases hurl : hasUrl with
    | false => simp [githubDownloadScriptExtender, hurl] at hign
    | true =>
      cases hq : queryGithub genv.response with
      | canceled => simp [githubDownloadScriptExtender, hurl, hq] at hign
      | netError => simp [githubDownloadScriptExtender, hurl, hq] at hign
      | parseError => simp [githubDownloadScriptExtender, hurl, hq] at hign
      | ok body =>
        cases body with
        | notArray => simp [githubDownloadScriptExtender, hurl, hq] at hign
        | releases rs =>
          cases hh : (getLatestReleases rs none).head? with
          | none => simp [githubDownloadScriptExtender, hurl, hq, hh] at hign
          | some first =>
            cases hl : resolveDownloadLink first gs with
            | none => simp [githubDownloadScriptExtender, hurl, hq, hh, hl] at hign
            | some link =>
              cases hcons : genv.consent with
              | ignore => simp [githubDownloadScriptExtender, hurl, hq, hh, hl, hcons]
              | download =>
                simp [githubDownloadScriptExtender, hurl, hq, hh, hl, hcons] at hign

/-- Witness for the amended claim C7, applying the theorem at four
concrete runs: a cancelled install unwinds benignly, a consent dismissal
leaves only the ignore flag, a dialog cancel stays silent but still sets
the primary tool, and a github consent dismissal ends silently with no
download. -/
theorem cancellation_benign_witness :
    ((downloadScriptExtenderNexus true
        ⟨.download, true, true, some [⟨300, "build for 1.6", false, 300, "Main", "2.0.17"⟩],
          some "1.6", .cancel, .ok, .canceled⟩).errorNotified = false ∧
      (downloadScriptExtenderNexus true
        ⟨.download, true, true, some [⟨300, "build for 1.6", false, 300, "Main", "2.0.17"⟩],
          some "1.6", .cancel, .ok, .canceled⟩).deployed = false ∧
      (downloadScriptExtenderNexus true
        ⟨.download, true, true, some [⟨300, "build for 1.6", false, 300, "Main", "2.0.17"⟩],
          some "1.6", .cancel, .ok, .canceled⟩).toolsRefreshed = false ∧
      (downloadScriptExtenderNexus true
        ⟨.download, true, true, some [⟨300, "build for 1.6", false, 300, "Main", "2.0.17"⟩],
          some "1.6", .cancel, .ok, .canceled⟩).primaryToolSet = false) ∧
    (downloadScriptExtenderNexus true
        ⟨.ignore, true, true, some [], none, .cancel, .ok, .ok⟩ =
      ⟨.canceled, false, true, false, false, false, false, false, false, false⟩) ∧
    ((downloadScriptExtenderNexus true
        ⟨.download, true, true, some [⟨77, "build for 2.1", false, 50, "Main", "2.1.0"⟩],
          some "1.6", .cancel, .ok, .ok⟩).errorNotified = false ∧
      (downloadScriptExtenderNexus true
        ⟨.download, true, true, some [⟨77, "build for 2.1", false, 50, "Main", "2.1.0"⟩],
          some "1.6", .cancel, .ok, .ok⟩).ignoreSet = false ∧
      (downloadScriptExtenderNexus true
        ⟨.download, true, true, some [⟨77, "build for 2.1", false, 50, "Main", "2.1.0"⟩],
          some "1.6", .cancel, .ok, .ok⟩).downloadStarted = false ∧
      (downloadScriptExtenderNexus true
        ⟨.download, true, true, some [⟨77, "build for 2.1", false, 50, "Main", "2.1.0"⟩],
          some "1.6", .cancel, .ok, .ok⟩).toolsRefreshed = true ∧
      (downloadScriptExtenderNexus true
        ⟨.download, true, true, some [⟨77, "build for 2.1", false, 50, "Main", "2.1.0"⟩],
          some "1.6", .cancel, .ok, .ok⟩).primaryToolSet = true) ∧
    (githubDownloadScriptExtender true ⟨"New Vegas Script Extender (NVSE)", fun _ => true⟩
        ⟨some ⟨200, none, none,
            some (.releases [⟨some "5.2.0", false, 0, [⟨"nvse_5_2_0.7z", "u"⟩]⟩])⟩,
          .ignore, .ok, .ok⟩ =
      ⟨false, true, false⟩) :=
  ⟨(cancellation_benign true
      ⟨.download, true, true, some [⟨300, "build for 1.6", false, 300, "Main", "2.0.17"⟩],
        some "1.6", .cancel, .ok, .canceled⟩
      true ⟨"New Vegas Script Extender (NVSE)", fun _ => true⟩
      ⟨none, .ignore, .ok, .ok⟩).1 (by decide),
   (cancellation_benign true
      ⟨.ignore, true, true, some [], none, .cancel, .ok, .ok⟩
      true ⟨"New Vegas Script Extender (NVSE)", fun _ => true⟩
      ⟨none, .ignore, .ok, .ok⟩).2.1 rfl,
   (cancellation_benign true
      ⟨.download, true, true, some [⟨77, "build for 2.1", false, 50, "Main", "2.1.0"⟩],
        some "1.6", .cancel, .ok, .ok⟩
      true ⟨"New Vegas Script Extender (NVSE)", fun _ => true⟩
      ⟨none, .ignore, .ok, .ok⟩).2.2.1 rfl rfl (by decide),
   (cancellation_benign true
      ⟨.ignore, true, true, some [], none, .cancel, .ok, .ok⟩
      true ⟨"New Vegas Script Extender (NVSE)", fun _ => true⟩
      ⟨some ⟨200, none, none,
          some (.releases [⟨some "5.2.0", false, 0, [⟨"nvse_5_2_0.7z", "u"⟩]⟩])⟩,
        .ignore, .ok, .ok⟩).2.2.2 (by decide)⟩

end SEI
